import Mathlib

/-!
Tooling API client (`tooling.go`) : request construction and response shapes

A shallow embedding of `ToolingService` from `tooling.go`.

* Go strings are byte sequences, so a Go `string` is a `List Byte` with `Byte = Fin 256`.
* `url.QueryEscape`, `url.QueryUnescape` and `strings.Join` are the Go standard library
  functions the operations call; they are embedded here following their Go sources
  (`net/url`, mode `encodeQueryComponent`, and `strings`).
* The transport (`Client.NewRequest`, `Client.Do`) is a collaborator that lives outside
  `tooling.go`; every operation is embedded over an arbitrary transport.
-/

namespace Force

/-! ## Bytes and strings -/

/-- A Go `byte`. -/
abbrev Byte := Fin 256

/-- A Go `string`: an immutable sequence of bytes. -/
abbrev GoString := List Byte

/-- The byte of an ASCII character literal such as `'%'`. -/
@[reducible] def chr (c : Char) : Byte := ⟨c.toNat % 256, Nat.mod_lt _ (by decide)⟩

/-- The bytes of a Go string literal (Go source text is UTF-8). -/
def str (s : String) : GoString :=
  s.toList.flatMap (fun c => (String.utf8EncodeChar c).map (fun b => (⟨b.toNat % 256, Nat.mod_lt _ (by decide)⟩ : Byte)))

/-! ## `strings.Join` -/

/-- The loop of `strings.Join` over `elems[1:]`: each element is written after a separator. -/
def joinTail (sep : GoString) : List GoString → GoString
  | [] => []
  | s :: rest => sep ++ s ++ joinTail sep rest

/-- Go's `strings.Join(elems, sep)`. -/
def Join (elems : List GoString) (sep : GoString) : GoString :=
  match elems with
  | [] => []
  | [e] => e
  | e :: rest => e ++ joinTail sep rest

/-! ## `net/url`: `QueryEscape` -/

/-- Go's `shouldEscape(c, encodeQueryComponent)`: letters, digits and the four marks
`-`, `_`, `.`, `~` are kept, every other byte is escaped. -/
def shouldEscape (c : Byte) : Bool :=
  if (chr 'a' ≤ c ∧ c ≤ chr 'z') ∨ (chr 'A' ≤ c ∧ c ≤ chr 'Z') ∨ (chr '0' ≤ c ∧ c ≤ chr '9') then
    false
  else if c = chr '-' ∨ c = chr '_' ∨ c = chr '.' ∨ c = chr '~' then
    false
  else
    true

/-- Go's `upperhex[i]` for the table `"0123456789ABCDEF"`, at an index `i < 16`. -/
def upperhex (i : Nat) : Byte :=
  (str "0123456789ABCDEF").getD i 0

/-- The first loop of `escape`: counts the spaces and the other bytes to escape. -/
def escapeCount : GoString → Nat → Nat → Nat × Nat
  | [], spaceCount, hexCount => (spaceCount, hexCount)
  | c :: rest, spaceCount, hexCount =>
    if shouldEscape c then
      if c = chr ' ' then escapeCount rest (spaceCount + 1) hexCount
      else escapeCount rest spaceCount (hexCount + 1)
    else escapeCount rest spaceCount hexCount

/-- The branch of `escape` taken when `hexCount == 0`: a copy with every space turned into `+`. -/
def escapeSpaces : GoString → GoString
  | [] => []
  | c :: rest => (if c = chr ' ' then chr '+' else c) :: escapeSpaces rest

/-- The main loop of `escape`: writes `+` for a space, `%XX` for a byte to escape, the byte itself
otherwise. -/
def escapeLoop : GoString → GoString
  | [] => []
  | c :: rest =>
    if c = chr ' ' then chr '+' :: escapeLoop rest
    else if shouldEscape c then
      chr '%' :: upperhex (c.val / 16) :: upperhex (c.val % 16) :: escapeLoop rest
    else c :: escapeLoop rest

/-- Go's `url.QueryEscape(s)`, that is `escape(s, encodeQueryComponent)`. -/
def QueryEscape (s : GoString) : GoString :=
  let counts := escapeCount s 0 0
  if counts.1 = 0 ∧ counts.2 = 0 then s
  else if counts.2 = 0 then escapeSpaces s
  else escapeLoop s

/-! ## `net/url`: `QueryUnescape` -/

/-- Go's `ishex`. -/
def ishex (c : Byte) : Bool :=
  if chr '0' ≤ c ∧ c ≤ chr '9' then true
  else if chr 'a' ≤ c ∧ c ≤ chr 'f' then true
  else if chr 'A' ≤ c ∧ c ≤ chr 'F' then true
  else false

/-- Go's `unhex` (byte arithmetic, so modulo 256). -/
def unhex (c : Byte) : Byte :=
  if chr '0' ≤ c ∧ c ≤ chr '9' then c - chr '0'
  else if chr 'a' ≤ c ∧ c ≤ chr 'f' then c - chr 'a' + 10
  else if chr 'A' ≤ c ∧ c ≤ chr 'F' then c - chr 'A' + 10
  else 0

/-- Go's `url.EscapeError`: the offending text, at most three bytes long. -/
structure EscapeError where
  text : GoString
deriving DecidableEq, Repr

/-- The first loop of `unescape` in mode `encodeQueryComponent`: counts the `%`, checks that two
hexadecimal digits follow each one, and notes whether a `+` occurs. -/
def unescapeCheck : GoString → Nat → Bool → Except EscapeError (Nat × Bool)
  | [], n, hasPlus => .ok (n, hasPlus)
  | c :: rest, n, hasPlus =>
    if c = chr '%' then
      match rest with
      | h1 :: h2 :: rest2 =>
        if ishex h1 && ishex h2 then unescapeCheck rest2 (n + 1) hasPlus
        else .error ⟨(c :: rest).take 3⟩
      | _ => .error ⟨(c :: rest).take 3⟩
    else if c = chr '+' then unescapeCheck rest n true
    else unescapeCheck rest n hasPlus

/-- The second loop of `unescape` in mode `encodeQueryComponent`: `%XY` becomes the byte
`unhex(X)<<4 | unhex(Y)`, `+` becomes a space, any other byte is copied. The loop runs only after
`unescapeCheck` has succeeded, so a `%` always has two bytes after it. -/
def unescapeLoop : GoString → GoString
  | [] => []
  | c :: rest =>
    if c = chr '%' then
      match rest with
      | h1 :: h2 :: rest2 =>
        (⟨((unhex h1).val * 16 % 256) ||| (unhex h2).val, by
            have h := (unhex h2).isLt
            have h3 : (unhex h1).val * 16 % 256 < 2 ^ 8 := Nat.mod_lt _ (by decide)
            exact Nat.or_lt_two_pow h3 h⟩ : Byte) :: unescapeLoop rest2
      | _ => []
    else if c = chr '+' then chr ' ' :: unescapeLoop rest
    else c :: unescapeLoop rest

/-- Go's `url.QueryUnescape(s)`, that is `unescape(s, encodeQueryComponent)`. -/
def QueryUnescape (s : GoString) : Except EscapeError GoString :=
  match unescapeCheck s 0 false with
  | .error e => .error e
  | .ok (n, hasPlus) =>
    if n = 0 ∧ hasPlus = false then .ok s
    else .ok (unescapeLoop s)

/-! ## Response and request shapes

Go `int` is embedded as `Int`, a slice as a `List` (the nil slice is the empty list), and a
`float64` as its 64 bits: no floating-point arithmetic happens in `tooling.go`. -/

/-- A Go `float64`, kept as its IEEE 754 bit pattern. -/
structure Float64 where
  bits : Fin (2 ^ 64)
deriving DecidableEq, Repr

/-- `DescribeGlobalSObjectResult` represents the properties for one of the objects available for
the organization. -/
structure DescribeGlobalSObjectResult where
  Activateable : Bool
  Createable : Bool
  Custom : Bool
  CustomSetting : Bool
  Deletable : Bool
  DeprecatedAndHidden : Bool
  FeedEnabled : Bool
  KeyPrefix : GoString
  Label : GoString
  LabelPlural : GoString
  Layoutable : Bool
  Mergeable : Bool
  Name : GoString
  Queryable : Bool
  Replicateable : Bool
  Retrieveable : Bool
  Searchable : Bool
  Triggerable : Bool
  Undeletable : Bool
  Updateable : Bool
deriving DecidableEq, Repr

/-- `DescribeGlobalResult` represents the response of `DescribeGlobal()`. -/
structure DescribeGlobalResult where
  Encoding : GoString
  MaxBatchSize : Int
  SObjects : List DescribeGlobalSObjectResult
deriving DecidableEq, Repr

/-- `ExecuteAnonymousResult` specifies whether or not the compile and run of the code was
successful. -/
structure ExecuteAnonymousResult where
  Column : Int
  CompileProblem : GoString
  Compiled : Bool
  ExceptionMessage : GoString
  ExceptionStackTrace : GoString
  Line : Int
  Success : Bool
deriving DecidableEq, Repr

/-- `CodeLocation`: line and column of a code position, and the number of times it was executed. -/
structure CodeLocation where
  Column : Int
  Line : Int
  NumExecutions : Int
  Time : Float64
deriving DecidableEq, Repr

/-- `CodeCoverageResult` contains the details of the code coverage for the specified unit tests.
The Go field `Type` is named `Type_` here, `Type` being a Lean keyword. -/
structure CodeCoverageResult where
  DmlInfo : List CodeLocation
  ID : GoString
  LocationsNotCovered : List CodeLocation
  MethodInfo : List CodeLocation
  Name : GoString
  Namespace : GoString
  NumLocations : Int
  NumLocationsNotCovered : Int
  SoqlInfo : List CodeLocation
  SoslInfo : List CodeLocation
  Type_ : GoString
deriving DecidableEq, Repr

/-- `CodeCoverageWarning`. -/
structure CodeCoverageWarning where
  Id : GoString
  Message : GoString
  Name : GoString
  Namespace : GoString
deriving DecidableEq, Repr

/-- `RunTestsAsynchronousRequest` is the body of the `runTestsAsynchronous` request. -/
structure RunTestsAsynchronousRequest where
  ClassIDs : GoString
  SuiteIDs : GoString
  MaxFailedTests : GoString
  TestLevel : GoString
deriving DecidableEq, Repr

/-- `RunTestFailure` contains information about failures during the unit test run.
The Go field `Type` is named `Type_` here, `Type` being a Lean keyword. -/
structure RunTestFailure where
  Id : GoString
  Message : GoString
  MethodName : GoString
  Name : GoString
  Namespace : GoString
  SeeAllData : GoString
  StackTrace : GoString
  Time : Float64
  Type_ : GoString
deriving DecidableEq, Repr

/-- `RunTestSuccess` contains information about successes during the unit test run. -/
structure RunTestSuccess where
  Id : GoString
  MethodName : GoString
  Name : GoString
  Namespace : GoString
  SeeAllData : GoString
  Time : Float64
deriving DecidableEq, Repr

/-- `RunTestsResult` contains information about the execution of unit tests. -/
structure RunTestsResult where
  ApexLogID : GoString
  CodeCoverage : List CodeCoverageResult
  CodeCoverageWarnings : List CodeCoverageWarning
  Failures : List RunTestFailure
  NumFailures : Int
  NumTestsRun : Int
  Successes : List RunTestSuccess
  TotalTime : Float64
deriving DecidableEq, Repr

/-- The zero value of `DescribeGlobalResult`. -/
def DescribeGlobalResult.zero : DescribeGlobalResult := ⟨[], 0, []⟩

/-- The zero value of `ExecuteAnonymousResult`. -/
def ExecuteAnonymousResult.zero : ExecuteAnonymousResult := ⟨0, [], false, [], [], 0, false⟩

/-- The zero value of `RunTestsResult`. -/
def RunTestsResult.zero : RunTestsResult := ⟨[], [], [], [], 0, 0, [], ⟨0⟩⟩

/-! ## The transport collaborator and the six operations

`c.client.NewRequest(method, urlStr, body)` returns a request and an error; `c.client.Do(req, &x)`
receives the address of a variable `x`, may store a decoded value in it, and returns an error.
Both may depend on and change the state of the world (`σ`). An operation is embedded as a function
of the transport, its arguments and the world before the call; next to what the Go function
returns, its outcome records the world after the call and the calls made on the transport, in
order. -/

/-- The static type of the variable whose address an operation hands to `Do`. -/
inductive Kind
  | DescribeGlobalResult
  | ExecuteAnonymousResult
  | String
  | RunTestsResult
  | Interface
deriving DecidableEq, Repr

/-- The values of a variable of the given static type; `V` is the universe of values an
`interface{}` can hold. -/
@[reducible] def Kind.Ty (V : Type) : Kind → Type
  | .DescribeGlobalResult => Force.DescribeGlobalResult
  | .ExecuteAnonymousResult => Force.ExecuteAnonymousResult
  | .String => GoString
  | .RunTestsResult => Force.RunTestsResult
  | .Interface => V

/-- The transport collaborator `*Client`, as far as `tooling.go` uses it. `Do req k cur w` is the
call `Do(req, &x)` for a variable `x` of static type `k` that holds `cur`; it answers with the
value `x` holds afterwards, the error, and the new world. -/
structure Client (σ Req Err V : Type) where
  NewRequest : GoString → GoString → Option RunTestsAsynchronousRequest → σ → (Req × Option Err) × σ
  Do : Req → (k : Kind) → Kind.Ty V k → σ → (Kind.Ty V k × Option Err) × σ

/-- A call made on the transport. -/
inductive Call (Req V : Type)
  | NewRequest (method urlStr : GoString) (body : Option RunTestsAsynchronousRequest)
  | Do (req : Req) (k : Kind) (cur : Kind.Ty V k)

/-- What an operation leaves behind: the values it returns (`result`, `err`), the world after it,
and the transport calls it made. -/
structure Outcome (σ Req Err V R : Type) where
  result : R
  err : Option Err
  world : σ
  calls : List (Call Req V)

/-- The operation `DescribeGlobal` lists the available Tooling API objects and their metadata:
it builds the request; on a construction error it returns at once, `result` still being the zero
value; otherwise it executes the request into `&result` and returns `result` and the error of
the execution. -/
def DescribeGlobal {σ Req Err V : Type} (c : Client σ Req Err V) (w : σ) :
    Outcome σ Req Err V DescribeGlobalResult :=
  let built := c.NewRequest (str "GET") (str "/tooling/sobjects/") none w
  match built.1.2 with
  | some e =>
    { result := DescribeGlobalResult.zero, err := some e, world := built.2,
      calls := [Call.NewRequest (str "GET") (str "/tooling/sobjects/") none] }
  | none =>
    let done := c.Do built.1.1 .DescribeGlobalResult DescribeGlobalResult.zero built.2
    { result := done.1.1, err := done.1.2, world := done.2,
      calls := [Call.NewRequest (str "GET") (str "/tooling/sobjects/") none,
                Call.Do built.1.1 .DescribeGlobalResult DescribeGlobalResult.zero] }

/-- The operation `ExecuteAnonymous` executes the specified block of Apex anonymously and returns
the result. -/
def ExecuteAnonymous {σ Req Err V : Type} (c : Client σ Req Err V) (apex : GoString) (w : σ) :
    Outcome σ Req Err V ExecuteAnonymousResult :=
  let built := c.NewRequest (str "GET")
      (str "/tooling/executeAnonymous/?anonymousBody=" ++ QueryEscape apex) none w
  match built.1.2 with
  | some e =>
    { result := ExecuteAnonymousResult.zero, err := some e, world := built.2,
      calls := [Call.NewRequest (str "GET")
          (str "/tooling/executeAnonymous/?anonymousBody=" ++ QueryEscape apex) none] }
  | none =>
    let done := c.Do built.1.1 .ExecuteAnonymousResult ExecuteAnonymousResult.zero built.2
    { result := done.1.1, err := done.1.2, world := done.2,
      calls := [Call.NewRequest (str "GET")
          (str "/tooling/executeAnonymous/?anonymousBody=" ++ QueryEscape apex) none,
                Call.Do built.1.1 .ExecuteAnonymousResult ExecuteAnonymousResult.zero] }

/-- The operation `Query` executes a query against a Tooling API object. It hands `Do` the
address `&v` of its own parameter `v`, a variable of type `interface{}`, and returns the error
only. -/
def Query {σ Req Err V : Type} (c : Client σ Req Err V) (soql : GoString) (v : V) (w : σ) :
    Outcome σ Req Err V Unit :=
  let built := c.NewRequest (str "GET") (str "/tooling/query/?q=" ++ QueryEscape soql) none w
  match built.1.2 with
  | some e =>
    { result := (), err := some e, world := built.2,
      calls := [Call.NewRequest (str "GET") (str "/tooling/query/?q=" ++ QueryEscape soql) none] }
  | none =>
    let done := c.Do built.1.1 .Interface v built.2
    { result := (), err := done.1.2, world := done.2,
      calls := [Call.NewRequest (str "GET") (str "/tooling/query/?q=" ++ QueryEscape soql) none,
                Call.Do built.1.1 .Interface v] }

/-- The operation `RunTestsAsynchronous` posts the joined class and suite IDs with the two
optional settings and returns what the transport decodes into the string `result`. -/
def RunTestsAsynchronous {σ Req Err V : Type} (c : Client σ Req Err V) (classids suiteids : List GoString)
    (maxFailedTests testLevel : GoString) (w : σ) :
    Outcome σ Req Err V GoString :=
  let body : RunTestsAsynchronousRequest :=
    { ClassIDs := Join classids (str ","),
      SuiteIDs := Join suiteids (str ","),
      MaxFailedTests := maxFailedTests,
      TestLevel := testLevel }
  let built := c.NewRequest (str "POST") (str "/tooling/runTestsAsynchronous/") (some body) w
  match built.1.2 with
  | some e =>
    { result := [], err := some e, world := built.2,
      calls := [Call.NewRequest (str "POST") (str "/tooling/runTestsAsynchronous/") (some body)] }
  | none =>
    let done := c.Do built.1.1 .String [] built.2
    { result := done.1.1, err := done.1.2, world := done.2,
      calls := [Call.NewRequest (str "POST") (str "/tooling/runTestsAsynchronous/") (some body),
                Call.Do built.1.1 .String []] }

/-- The operation `RunTests` executes the tests in the specified classes using the synchronous
test execution mechanism. -/
def RunTests {σ Req Err V : Type} (c : Client σ Req Err V) (classnames : List GoString) (w : σ) :
    Outcome σ Req Err V RunTestsResult :=
  let built := c.NewRequest (str "GET")
      (str "/tooling/runTestsSynchronous/?classnames=" ++ QueryEscape (Join classnames (str ","))) none w
  match built.1.2 with
  | some e =>
    { result := RunTestsResult.zero, err := some e, world := built.2,
      calls := [Call.NewRequest (str "GET")
          (str "/tooling/runTestsSynchronous/?classnames=" ++ QueryEscape (Join classnames (str ","))) none] }
  | none =>
    let done := c.Do built.1.1 .RunTestsResult RunTestsResult.zero built.2
    { result := done.1.1, err := done.1.2, world := done.2,
      calls := [Call.NewRequest (str "GET")
          (str "/tooling/runTestsSynchronous/?classnames=" ++ QueryEscape (Join classnames (str ","))) none,
                Call.Do built.1.1 .RunTestsResult RunTestsResult.zero] }

/-- The operation `Search` is used to search for records that match a specified text string. It
hands `Do` the address `&v` of its own parameter `v`, a variable of type `interface{}`, and
returns the error only. -/
def Search {σ Req Err V : Type} (c : Client σ Req Err V) (sosl : GoString) (v : V) (w : σ) :
    Outcome σ Req Err V Unit :=
  let built := c.NewRequest (str "GET") (str "/tooling/search/?q=" ++ QueryEscape sosl) none w
  match built.1.2 with
  | some e =>
    { result := (), err := some e, world := built.2,
      calls := [Call.NewRequest (str "GET") (str "/tooling/search/?q=" ++ QueryEscape sosl) none] }
  | none =>
    let done := c.Do built.1.1 .Interface v built.2
    { result := (), err := done.1.2, world := done.2,
      calls := [Call.NewRequest (str "GET") (str "/tooling/search/?q=" ++ QueryEscape sosl) none,
                Call.Do built.1.1 .Interface v] }

/-- The shape the six operations share, used to reason about them together: build the request;
on a construction error return at once with `zero` as result; otherwise execute the request into
`&x`, where `x` is a variable of type `k` holding `cur`, and return `ret` of what `x` then holds
together with the error of the execution. -/
def perform {σ Req Err V R : Type} (c : Client σ Req Err V) (method urlStr : GoString)
    (body : Option RunTestsAsynchronousRequest) (k : Kind) (cur : Kind.Ty V k) (zero : R)
    (ret : Kind.Ty V k → R) (w : σ) : Outcome σ Req Err V R :=
  let built := c.NewRequest method urlStr body w
  match built.1.2 with
  | some e =>
    { result := zero, err := some e, world := built.2, calls := [Call.NewRequest method urlStr body] }
  | none =>
    let done := c.Do built.1.1 k cur built.2
    { result := ret done.1.1, err := done.1.2, world := done.2,
      calls := [Call.NewRequest method urlStr body, Call.Do built.1.1 k cur] }

/-- Whether a transport call is a call of `Do`, the step that goes to the network. -/
def Call.isDo {Req V : Type} : Call Req V → Bool
  | .NewRequest _ _ _ => false
  | .Do _ _ _ => true

/-! ## The shape of an escaped query parameter -/

/-- An ASCII letter or digit. -/
def isAlnum (c : Byte) : Bool :=
  (chr 'a' ≤ c && c ≤ chr 'z') || (chr 'A' ≤ c && c ≤ chr 'Z') || (chr '0' ≤ c && c ≤ chr '9')

/-- An upper-case hexadecimal digit. -/
def isUpperHex (c : Byte) : Bool :=
  (chr '0' ≤ c && c ≤ chr '9') || (chr 'A' ≤ c && c ≤ chr 'F')

/-- The text is made only of ASCII letters, digits, `-`, `_`, `.`, `~`, `+`, and `%` followed by
two upper-case hexadecimal digits. -/
def wellEscaped : GoString → Bool
  | [] => true
  | c :: rest =>
    if c = chr '%' then
      match rest with
      | h1 :: h2 :: rest2 => isUpperHex h1 && isUpperHex h2 && wellEscaped rest2
      | _ => false
    else
      (isAlnum c || c = chr '-' || c = chr '_' || c = chr '.' || c = chr '~' || c = chr '+')
        && wellEscaped rest

/-! ## JSON bodies

`tooling.go` fixes the JSON keys of the request body and of the response records through its
struct tags; turning a body into JSON and a response into a record is done by the transport. -/

/-- A JSON value; a number is kept as its literal text. -/
inductive JSON
  | null
  | bool (b : Bool)
  | number (lit : GoString)
  | string (s : GoString)
  | array (elems : List JSON)
  | object (members : List (GoString × JSON))

/-- The value of the member `key` of a JSON object. Keys are compared exactly, as the spec asks
of field names; of several members with one key the last one counts. -/
def member (ms : List (GoString × JSON)) (key : GoString) : Option JSON :=
  (ms.reverse.find? (fun kv => kv.1 = key)).map (fun kv => kv.2)

/-- Modelled from the spec: the serialisation of the request body, which the transport's
`NewRequest` performs and `tooling.go` does not contain. Each field of
`RunTestsAsynchronousRequest` is a string tagged `omitempty` in the source, so it becomes a member
under the key of its tag when it is not empty and is left out when it is empty. -/
def omitempty (key : GoString) (value : GoString) : List (GoString × JSON) :=
  if value = [] then [] else [(key, JSON.string value)]

/-- Modelled from the spec: the JSON body of a `RunTestsAsynchronousRequest`, which the transport's
`NewRequest` produces and `tooling.go` does not contain; keys and `omitempty` are the struct tags
of the source, in the order of the fields. -/
def marshalRunTestsAsynchronousRequest (b : RunTestsAsynchronousRequest) : List (GoString × JSON) :=
  omitempty (str "classids") b.ClassIDs ++ omitempty (str "suiteids") b.SuiteIDs ++
    omitempty (str "maxFailedTests") b.MaxFailedTests ++ omitempty (str "testLevel") b.TestLevel

/-- The digits of a decimal literal, read from the left onto the accumulator. -/
def parseDigits : GoString → Nat → Option Nat
  | [], acc => some acc
  | c :: rest, acc =>
    if chr '0' ≤ c ∧ c ≤ chr '9' then parseDigits rest (acc * 10 + (c.val - 48)) else none

/-- Modelled from the spec: reading a number literal into a Go `int` (64 bits), as the transport's
decode step does it; that step is not in `tooling.go`. An optional sign, then digits only, and
the value must fit. -/
def parseInt (lit : GoString) : Option Int :=
  let neg := lit.head? = some (chr '-')
  let digits := if lit.head? = some (chr '-') ∨ lit.head? = some (chr '+') then lit.tail else lit
  if digits = [] then none
  else
    match parseDigits digits 0 with
    | none => none
    | some n =>
      if neg then (if n ≤ 2 ^ 63 then some (-(n : Int)) else none)
      else (if n < 2 ^ 63 then some (n : Int) else none)

/-- Modelled from the spec: decoding a member into a `string` field; the decode step belongs to the
transport's `Do` and is not in `tooling.go`. A missing member or `null` leaves the zero value,
a JSON string is taken as it is, anything else is a decoding error. -/
def getString (ms : List (GoString × JSON)) (key : GoString) : Option GoString :=
  match member ms key with
  | none => some []
  | some .null => some []
  | some (.string s) => some s
  | some _ => none

/-- Modelled from the spec: decoding a member into an `int` field (see `getString`). -/
def getInt (ms : List (GoString × JSON)) (key : GoString) : Option Int :=
  match member ms key with
  | none => some 0
  | some .null => some 0
  | some (.number lit) => parseInt lit
  | some _ => none

/-- Modelled from the spec: decoding a member into a `float64` field (see `getString`); `pf` is
the conversion of a number literal to a `float64`, which is left open. -/
def getFloat (pf : GoString → Option Float64) (ms : List (GoString × JSON)) (key : GoString) :
    Option Float64 :=
  match member ms key with
  | none => some ⟨0⟩
  | some .null => some ⟨0⟩
  | some (.number lit) => pf lit
  | some _ => none

/-- Modelled from the spec: decoding the elements of an array one by one, in order. -/
def decodeElems {α : Type} (f : JSON → Option α) : List JSON → Option (List α)
  | [] => some []
  | j :: rest =>
    match f j, decodeElems f rest with
    | some a, some as => some (a :: as)
    | _, _ => none

/-- Modelled from the spec: decoding a member into a slice field (see `getString`). -/
def getList {α : Type} (f : JSON → Option α) (ms : List (GoString × JSON)) (key : GoString) :
    Option (List α) :=
  match member ms key with
  | none => some []
  | some .null => some []
  | some (.array elems) => decodeElems f elems
  | some _ => none

/-- Modelled from the spec: decoding a response object into a `CodeLocation`; the decode step
belongs to the transport's `Do` and is not in `tooling.go`. Each field is read from the key of its
struct tag in the source. -/
def decodeCodeLocation (pf : GoString → Option Float64) : JSON → Option CodeLocation
  | .object ms => do
    let column ← getInt ms (str "column")
    let line ← getInt ms (str "line")
    let numExecutions ← getInt ms (str "numExecutions")
    let time ← getFloat pf ms (str "time")
    pure { Column := column, Line := line, NumExecutions := numExecutions, Time := time }
  | _ => none

/-- Modelled from the spec: decoding a response object into a `CodeCoverageResult` (see
`decodeCodeLocation`); keys are the struct tags of the source. -/
def decodeCodeCoverageResult (pf : GoString → Option Float64) : JSON → Option CodeCoverageResult
  | .object ms => do
    let dmlInfo ← getList (decodeCodeLocation pf) ms (str "dmlInfo")
    let id ← getString ms (str "id")
    let locationsNotCovered ← getList (decodeCodeLocation pf) ms (str "locationsNotCovered")
    let methodInfo ← getList (decodeCodeLocation pf) ms (str "methodInfo")
    let name ← getString ms (str "name")
    let namespace_ ← getString ms (str "namespace")
    let numLocations ← getInt ms (str "numLocations")
    let numLocationsNotCovered ← getInt ms (str "numLocationsNotCovered")
    let soqlInfo ← getList (decodeCodeLocation pf) ms (str "soqlInfo")
    let soslInfo ← getList (decodeCodeLocation pf) ms (str "soslInfo")
    let type_ ← getString ms (str "type")
    pure { DmlInfo := dmlInfo, ID := id, LocationsNotCovered := locationsNotCovered,
           MethodInfo := methodInfo, Name := name, Namespace := namespace_,
           NumLocations := numLocations, NumLocationsNotCovered := numLocationsNotCovered,
           SoqlInfo := soqlInfo, SoslInfo := soslInfo, Type_ := type_ }
  | _ => none

/-- Modelled from the spec: decoding a response object into a `CodeCoverageWarning` (see
`decodeCodeLocation`); keys are the struct tags of the source. -/
def decodeCodeCoverageWarning : JSON → Option CodeCoverageWarning
  | .object ms => do
    let id ← getString ms (str "id")
    let message ← getString ms (str "message")
    let name ← getString ms (str "name")
    let namespace_ ← getString ms (str "namespace")
    pure { Id := id, Message := message, Name := name, Namespace := namespace_ }
  | _ => none

/-- Modelled from the spec: decoding a response object into a `RunTestFailure` (see
`decodeCodeLocation`); keys are the struct tags of the source, where the field `Type` carries the
tag `string`. -/
def decodeRunTestFailure (pf : GoString → Option Float64) : JSON → Option RunTestFailure
  | .object ms => do
    let id ← getString ms (str "id")
    let message ← getString ms (str "message")
    let methodName ← getString ms (str "methodName")
    let name ← getString ms (str "name")
    let namespace_ ← getString ms (str "namespace")
    let seeAllData ← getString ms (str "seeAllData")
    let stackTrace ← getString ms (str "stackTrace")
    let time ← getFloat pf ms (str "time")
    let type_ ← getString ms (str "string")
    pure { Id := id, Message := message, MethodName := methodName, Name := name,
           Namespace := namespace_, SeeAllData := seeAllData, StackTrace := stackTrace,
           Time := time, Type_ := type_ }
  | _ => none

/-- Modelled from the spec: decoding a response object into a `RunTestSuccess` (see
`decodeCodeLocation`); keys are the struct tags of the source. -/
def decodeRunTestSuccess (pf : GoString → Option Float64) : JSON → Option RunTestSuccess
  | .object ms => do
    let id ← getString ms (str "id")
    let methodName ← getString ms (str "methodName")
    let name ← getString ms (str "name")
    let namespace_ ← getString ms (str "namespace")
    let seeAllData ← getString ms (str "seeAllData")
    let time ← getFloat pf ms (str "time")
    pure { Id := id, MethodName := methodName, Name := name, Namespace := namespace_,
           SeeAllData := seeAllData, Time := time }
  | _ => none

/-- Modelled from the spec: decoding a response object into a `RunTestsResult` (see
`decodeCodeLocation`); keys are the struct tags of the source. Nothing relates `numFailures` to
the `failures` array. -/
def decodeRunTestsResult (pf : GoString → Option Float64) : JSON → Option RunTestsResult
  | .object ms => do
    let apexLogId ← getString ms (str "apexLogId")
    let codeCoverage ← getList (decodeCodeCoverageResult pf) ms (str "codeCoverage")
    let codeCoverageWarnings ← getList decodeCodeCoverageWarning ms (str "codeCoverageWarnings")
    let failures ← getList (decodeRunTestFailure pf) ms (str "failures")
    let numFailures ← getInt ms (str "numFailures")
    let numTestsRun ← getInt ms (str "numTestsRun")
    let successes ← getList (decodeRunTestSuccess pf) ms (str "successes")
    let totalTime ← getFloat pf ms (str "totalTime")
    pure { ApexLogID := apexLogId, CodeCoverage := codeCoverage,
           CodeCoverageWarnings := codeCoverageWarnings, Failures := failures,
           NumFailures := numFailures, NumTestsRun := numTestsRun, Successes := successes,
           TotalTime := totalTime }
  | _ => none

/-- A byte that may occur in an escaped query parameter: an ASCII letter or digit, one of
`-`, `_`, `.`, `~`, `+`, or `%`. -/
def escapedByte (c : Byte) : Bool :=
  isAlnum c || c = chr '-' || c = chr '_' || c = chr '.' || c = chr '~' || c = chr '+' || c = chr '%'

/-- The part of a request path that follows its first `?`. -/
def afterQuestionMark (path : GoString) : GoString :=
  (path.dropWhile (fun c => c != chr '?')).drop 1

/-- What it means that caller text cannot alter the structure of a request path: the path is the
fixed text `pre` followed by a well-escaped text, it contains exactly one `?` and exactly one `=`,
after the `?` there is no `&`, `#` or `/`, and there is no space anywhere. -/
def structurePreserved (pre path : GoString) : Prop :=
  (∃ enc, path = pre ++ enc ∧ wellEscaped enc = true) ∧
  path.count (chr '?') = 1 ∧ path.count (chr '=') = 1 ∧
  (∀ c ∈ afterQuestionMark path, c ≠ chr '&' ∧ c ≠ chr '#' ∧ c ≠ chr '/') ∧
  chr ' ' ∉ path

/-- The transport calls and the returned values of an operation that built its request and then
executed it: `Do` was called exactly once, on the request `NewRequest` returned and with the
address of a variable of type `k` holding `cur`; the error returned is the one `Do` returned, the
result is `ret` of what `Do` left in that variable, and the world is the one `Do` left. -/
def executedOnce {σ Req Err V R : Type} (c : Client σ Req Err V) (method urlStr : GoString)
    (body : Option RunTestsAsynchronousRequest) (k : Kind) (cur : Kind.Ty V k)
    (ret : Kind.Ty V k → R) (w : σ) (o : Outcome σ Req Err V R) : Prop :=
  o.calls.filter Call.isDo = [Call.Do (c.NewRequest method urlStr body w).1.1 k cur] ∧
  o.err = (c.Do (c.NewRequest method urlStr body w).1.1 k cur (c.NewRequest method urlStr body w).2).1.2 ∧
  o.result = ret (c.Do (c.NewRequest method urlStr body w).1.1 k cur (c.NewRequest method urlStr body w).2).1.1 ∧
  o.world = (c.Do (c.NewRequest method urlStr body w).1.1 k cur (c.NewRequest method urlStr body w).2).2

/-! ## Sample transports

Concrete transports on which the statements below are evaluated. The world is the number of
requests executed so far, a request is the path it was built for, an error is a number and an
`interface{}` holds a number. -/

/-- A transport whose construction step rejects every request with error `7`. -/
def rejecting : Client Nat GoString Nat Nat where
  NewRequest := fun _ urlStr _ w => ((urlStr, some 7), w)
  Do := fun _ _ cur w => ((cur, none), w + 1)

/-- What the sample transport `canned` decodes into a destination of each type. -/
def cannedValue : (k : Kind) → Kind.Ty Nat k → Kind.Ty Nat k
  | .DescribeGlobalResult, _ => { Encoding := str "UTF-8", MaxBatchSize := 200, SObjects := [] }
  | .ExecuteAnonymousResult, cur =>
    { cur with Success := false, Compiled := true, ExceptionMessage := str "boom" }
  | .String, _ => str "707xx0000000001"
  | .RunTestsResult, cur => { cur with NumFailures := 2, NumTestsRun := 5 }
  | .Interface, _ => 42

/-- A transport that builds every request, executes it without error and decodes the values of
`cannedValue`. -/
def canned : Client Nat GoString Nat Nat where
  NewRequest := fun _ urlStr _ w => ((urlStr, none), w)
  Do := fun _ k cur w => ((cannedValue k cur, none), w + 1)

/-- A response body of a synchronous test run with `numFailures` 2 and two failure entries. -/
def twoFailures : List (GoString × JSON) :=
  [(str "numFailures", .number (str "2")),
   (str "numTestsRun", .number (str "5")),
   (str "failures", .array
      [.object [(str "name", .string (str "FooTest")), (str "methodName", .string (str "testA")),
                (str "message", .string (str "Assertion failed"))],
       .object [(str "name", .string (str "FooTest")), (str "methodName", .string (str "testB")),
                (str "message", .string (str "boom"))]]),
   (str "successes", .array
      [.object [(str "name", .string (str "BarTest")), (str "methodName", .string (str "testC"))]])]

/-! ## Lemmas on escaping, unescaping and joining -/

set_option maxRecDepth 100000 in
theorem hex_roundtrip : ∀ c : Byte,
    ishex (upperhex (c.val / 16)) = true ∧ ishex (upperhex (c.val % 16)) = true ∧
    ((unhex (upperhex (c.val / 16))).val * 16 % 256 ||| (unhex (upperhex (c.val % 16))).val) = c.val := by
  decide

set_option maxRecDepth 100000 in
theorem kept_not_special : ∀ c : Byte, shouldEscape c = false → c ≠ chr '%' ∧ c ≠ chr '+' ∧ c ≠ chr ' ' := by
  decide

theorem unescapeCheck_pct (h1 h2 : Byte) (r : GoString) (n : Nat) (hp : Bool) :
    unescapeCheck (chr '%' :: h1 :: h2 :: r) n hp =
      if ishex h1 && ishex h2 then unescapeCheck r (n + 1) hp
      else .error ⟨(chr '%' :: h1 :: h2 :: r).take 3⟩ := by
  rw [unescapeCheck, if_pos rfl]

theorem unescapeCheck_plus (r : GoString) (n : Nat) (hp : Bool) :
    unescapeCheck (chr '+' :: r) n hp = unescapeCheck r n true := by
  conv_lhs => unfold unescapeCheck
  rw [if_neg (by decide), if_pos rfl]

theorem unescapeCheck_other (c : Byte) (r : GoString) (n : Nat) (hp : Bool)
    (h1 : c ≠ chr '%') (h2 : c ≠ chr '+') :
    unescapeCheck (c :: r) n hp = unescapeCheck r n hp := by
  conv_lhs => unfold unescapeCheck
  rw [if_neg h1, if_neg h2]

theorem unescapeLoop_pct (h1 h2 : Byte) (r : GoString) :
    (unescapeLoop (chr '%' :: h1 :: h2 :: r)).map Fin.val =
      (((unhex h1).val * 16 % 256) ||| (unhex h2).val) :: (unescapeLoop r).map Fin.val := by
  rw [unescapeLoop, if_pos rfl]
  rfl

theorem unescapeLoop_plus (r : GoString) :
    unescapeLoop (chr '+' :: r) = chr ' ' :: unescapeLoop r := by
  conv_lhs => unfold unescapeLoop
  rw [if_neg (by decide), if_pos rfl]

theorem unescapeLoop_other (c : Byte) (r : GoString) (h1 : c ≠ chr '%') (h2 : c ≠ chr '+') :
    unescapeLoop (c :: r) = c :: unescapeLoop r := by
  conv_lhs => unfold unescapeLoop
  rw [if_neg h1, if_neg h2]

/-- The check never lowers the count of `%` and never forgets a `+`. -/
theorem unescapeCheck_mono (t : GoString) (n : Nat) (hp : Bool) :
    ∀ n2 hp2, unescapeCheck t n hp = .ok (n2, hp2) → n ≤ n2 ∧ (hp = true → hp2 = true) := by
  induction t, n, hp using unescapeCheck.induct with
  | case1 n hp =>
    intro n2 hp2 h
    simp only [unescapeCheck, Except.ok.injEq, Prod.mk.injEq] at h
    exact ⟨by omega, fun h3 => by rw [← h.2]; exact h3⟩
  | case2 n hp h1 h2 r hx ih =>
    intro n2 hp2 h
    rw [unescapeCheck_pct, if_pos hx] at h
    have := ih n2 hp2 h
    exact ⟨by omega, this.2⟩
  | case3 n hp h1 h2 r hx =>
    intro n2 hp2 h
    rw [unescapeCheck_pct, if_neg hx] at h
    cases h
  | case4 r n hp hr =>
    intro n2 hp2 h
    rw [unescapeCheck, if_pos rfl] at h
    · cases h
    · exact hr
  | case5 r n hp _ ih =>
    intro n2 hp2 h
    rw [unescapeCheck_plus] at h
    have := ih n2 hp2 h
    exact ⟨this.1, fun _ => this.2 rfl⟩
  | case6 c r n hp h1 h2 ih =>
    intro n2 hp2 h
    rw [unescapeCheck_other c r n hp h1 h2] at h
    exact ih n2 hp2 h

/-- When the check finds no `%` and no `+`, the decoding loop copies its input. -/
theorem unescapeLoop_of_plain (t : GoString) (n : Nat) (hp : Bool) :
    unescapeCheck t n hp = .ok (n, false) → unescapeLoop t = t := by
  induction t, n, hp using unescapeCheck.induct with
  | case1 n hp => intro _; rfl
  | case2 n hp h1 h2 r hx ih =>
    intro h
    rw [unescapeCheck_pct, if_pos hx] at h
    have := (unescapeCheck_mono r (n + 1) hp n false h).1
    omega
  | case3 n hp h1 h2 r hx =>
    intro h
    rw [unescapeCheck_pct, if_neg hx] at h
    cases h
  | case4 r n hp hr =>
    intro h
    rw [unescapeCheck, if_pos rfl] at h
    · cases h
    · exact hr
  | case5 r n hp _ ih =>
    intro h
    rw [unescapeCheck_plus] at h
    have := (unescapeCheck_mono r n true n false h).2 rfl
    cases this
  | case6 c r n hp h1 h2 ih =>
    intro h
    rw [unescapeCheck_other c r n hp h1 h2] at h
    rw [unescapeLoop_other c r h1 h2, ih h]

/-- Whenever the check succeeds, `QueryUnescape` returns what the decoding loop produces. -/
theorem QueryUnescape_of_check (t : GoString) (n : Nat) (hp : Bool)
    (h : unescapeCheck t 0 false = .ok (n, hp)) : QueryUnescape t = .ok (unescapeLoop t) := by
  unfold QueryUnescape
  rw [h]
  simp only
  split
  · rename_i h2
    obtain ⟨rfl, rfl⟩ := h2
    rw [unescapeLoop_of_plain t 0 false h]
  · rfl

/-- The check accepts every output of the escaping loop. -/
theorem unescapeCheck_escapeLoop (s : GoString) :
    ∀ n hp, ∃ n2 hp2, unescapeCheck (escapeLoop s) n hp = .ok (n2, hp2) := by
  induction s with
  | nil => intro n hp; exact ⟨n, hp, rfl⟩
  | cons c rest ih =>
    intro n hp
    rw [escapeLoop]
    by_cases hc : c = chr ' '
    · rw [if_pos hc, unescapeCheck_plus]
      exact ih n true
    · rw [if_neg hc]
      cases hs : shouldEscape c with
      | true =>
        rw [if_pos rfl, unescapeCheck_pct]
        have hh := hex_roundtrip c
        rw [hh.1, hh.2.1]
        exact ih (n + 1) hp
      | false =>
        rw [if_neg (by simp)]
        have hk := kept_not_special c hs
        rw [unescapeCheck_other c _ n hp hk.1 hk.2.1]
        exact ih n hp

/-- The decoding loop undoes the escaping loop. -/
theorem unescapeLoop_escapeLoop (s : GoString) : unescapeLoop (escapeLoop s) = s := by
  induction s with
  | nil => rfl
  | cons c rest ih =>
    rw [escapeLoop]
    by_cases hc : c = chr ' '
    · rw [if_pos hc, unescapeLoop_plus, ih, hc]
    · rw [if_neg hc]
      cases hs : shouldEscape c with
      | true =>
        rw [if_pos rfl]
        apply List.map_injective_iff.mpr Fin.val_injective
        rw [unescapeLoop_pct, ih, (hex_roundtrip c).2.2]
        rfl
      | false =>
        rw [if_neg (by simp)]
        have hk := kept_not_special c hs
        rw [unescapeLoop_other c _ hk.1 hk.2.1, ih]

theorem escapeCount_mono (s : GoString) : ∀ a b, a ≤ (escapeCount s a b).1 ∧ b ≤ (escapeCount s a b).2 := by
  induction s with
  | nil => intro a b; simp [escapeCount]
  | cons c rest ih =>
    intro a b
    simp only [escapeCount]
    split
    · split
      · have := ih (a + 1) b; omega
      · have := ih a (b + 1); omega
    · exact ih a b

theorem escapeLoop_of_no_hex (s : GoString) : ∀ a b, (escapeCount s a b).2 = b → escapeLoop s = escapeSpaces s := by
  induction s with
  | nil => intro a b _; rfl
  | cons c rest ih =>
    intro a b h
    simp only [escapeCount] at h
    simp only [escapeLoop, escapeSpaces]
    cases hs : shouldEscape c with
    | true =>
      by_cases hc : c = chr ' '
      · rw [hs, if_pos rfl, if_pos hc] at h
        rw [if_pos hc, if_pos hc, ih _ _ h]
      · rw [hs, if_pos rfl, if_neg hc] at h
        have := (escapeCount_mono rest a (b + 1)).2
        omega
    | false =>
      rw [hs, if_neg (by simp)] at h
      have hk := kept_not_special c hs
      rw [if_neg hk.2.2, if_neg (by simp), if_neg hk.2.2, ih _ _ h]

theorem escapeSpaces_of_no_space (s : GoString) : ∀ a b, (escapeCount s a b) = (a, b) → escapeSpaces s = s := by
  induction s with
  | nil => intro a b _; rfl
  | cons c rest ih =>
    intro a b h
    simp only [escapeCount] at h
    simp only [escapeSpaces]
    cases hs : shouldEscape c with
    | true =>
      by_cases hc : c = chr ' '
      · rw [hs, if_pos rfl, if_pos hc] at h
        have := (escapeCount_mono rest (a + 1) b).1
        rw [h] at this; simp at this
      · rw [hs, if_pos rfl, if_neg hc] at h
        have := (escapeCount_mono rest a (b + 1)).2
        rw [h] at this; simp at this
    | false =>
      rw [hs, if_neg (by simp)] at h
      have hk := kept_not_special c hs
      rw [if_neg hk.2.2, ih _ _ h]

/-- The three branches of `escape` agree with its main loop. -/
theorem QueryEscape_eq_escapeLoop (s : GoString) : QueryEscape s = escapeLoop s := by
  unfold QueryEscape
  simp only
  split
  · rename_i h
    have h2 : escapeCount s 0 0 = (0, 0) := Prod.ext h.1 h.2
    rw [escapeLoop_of_no_hex s 0 0 h.2, escapeSpaces_of_no_space s 0 0 h2]
  · split
    · rename_i h
      rw [escapeLoop_of_no_hex s 0 0 h]
    · rfl

set_option maxRecDepth 100000 in
theorem upperhex_isUpperHex : ∀ c : Byte,
    isUpperHex (upperhex (c.val / 16)) = true ∧ isUpperHex (upperhex (c.val % 16)) = true := by
  decide

set_option maxRecDepth 100000 in
theorem kept_shape : ∀ c : Byte, shouldEscape c = false →
    c ≠ chr '%' ∧
    (isAlnum c || c = chr '-' || c = chr '_' || c = chr '.' || c = chr '~' || c = chr '+') = true := by
  decide

set_option maxRecDepth 100000 in
theorem escapedByte_not_reserved : ∀ c : Byte, escapedByte c = true →
    c ≠ chr '?' ∧ c ≠ chr '=' ∧ c ≠ chr '&' ∧ c ≠ chr '#' ∧ c ≠ chr '/' ∧ c ≠ chr ' ' := by
  decide

set_option maxRecDepth 100000 in
theorem isUpperHex_escapedByte : ∀ c : Byte, isUpperHex c = true → escapedByte c = true := by
  decide

theorem wellEscaped_escapeLoop (s : GoString) : wellEscaped (escapeLoop s) = true := by
  induction s with
  | nil => rfl
  | cons c rest ih =>
    rw [escapeLoop]
    by_cases hc : c = chr ' '
    · rw [if_pos hc]
      conv_lhs => unfold wellEscaped
      rw [if_neg (by decide), ih]
      decide
    · rw [if_neg hc]
      cases hs : shouldEscape c with
      | true =>
        rw [if_pos rfl]
        conv_lhs => unfold wellEscaped
        rw [if_pos rfl]
        simp only [(upperhex_isUpperHex c).1, (upperhex_isUpperHex c).2, ih, Bool.and_self]
      | false =>
        rw [if_neg (by simp)]
        have hk := kept_shape c hs
        conv_lhs => unfold wellEscaped
        rw [if_neg hk.1, hk.2, ih]
        rfl

theorem wellEscaped_mem (t : GoString) : wellEscaped t = true → ∀ c ∈ t, escapedByte c = true := by
  induction t using wellEscaped.induct with
  | case1 => intro _ c hc; cases hc
  | case2 h1 h2 r ih =>
    intro h c hc
    unfold wellEscaped at h
    rw [if_pos rfl] at h
    simp only [Bool.and_eq_true] at h
    simp only [List.mem_cons] at hc
    rcases hc with rfl | rfl | rfl | hc
    · decide
    · exact isUpperHex_escapedByte _ h.1.1
    · exact isUpperHex_escapedByte _ h.1.2
    · exact ih h.2 c hc
  | case3 r hr =>
    intro h
    rw [wellEscaped, if_pos rfl] at h
    · cases h
    · exact hr
  | case4 d r hd ih =>
    intro h c hc
    unfold wellEscaped at h
    rw [if_neg hd] at h
    simp only [Bool.and_eq_true] at h
    simp only [List.mem_cons] at hc
    rcases hc with rfl | hc
    · unfold escapedByte
      rw [h.1]; rfl
    · exact ih h.2 c hc

/-- Go's `strings.Join` is the textbook join: the elements in order with the separator between
neighbours. -/
theorem Join_eq_intercalate (elems : List GoString) (sep : GoString) :
    Join elems sep = List.intercalate sep elems := by
  cases elems with
  | nil => rfl
  | cons e rest =>
    cases rest with
    | nil => simp [Join, List.intercalate]
    | cons e2 rest2 =>
      simp only [Join]
      induction rest2 generalizing e e2 with
      | nil => simp [joinTail, List.intercalate, List.intersperse]
      | cons e3 rest3 ih =>
        have := ih e2 e3
        simp only [joinTail, List.intercalate, List.intersperse, List.flatten, List.append_assoc] at this ⊢
        rw [this]

theorem Join_length (elems : List GoString) (sep : GoString) :
    (Join elems sep).length = (elems.map List.length).sum + sep.length * (elems.length - 1) := by
  cases elems with
  | nil => rfl
  | cons e rest =>
    cases rest with
    | nil => simp [Join]
    | cons e2 rest2 =>
      simp only [Join, List.length_append, List.map_cons, List.sum_cons, List.length_cons]
      have h : ∀ l : List GoString, (joinTail sep l).length = (l.map List.length).sum + sep.length * l.length := by
        intro l
        induction l with
        | nil => simp [joinTail]
        | cons a l ih => simp only [joinTail, List.length_append, ih, List.map_cons, List.sum_cons, List.length_cons]; ring
      have := h (e2 :: rest2)
      simp only [List.map_cons, List.sum_cons, List.length_cons] at this
      rw [this]
      simp only [Nat.add_sub_cancel]
      omega

theorem Join_head (elems : List GoString) (sep : GoString) :
    elems.headD [] <+: Join elems sep := by
  cases elems with
  | nil => simp [Join]
  | cons e rest =>
    cases rest with
    | nil => simp [Join]
    | cons e2 rest2 => simp [Join]

theorem joinTail_last (sep : GoString) (l : List GoString) (hl : l ≠ []) :
    l.getLastD [] <:+ joinTail sep l := by
  induction l with
  | nil => exact (hl rfl).elim
  | cons a l ih =>
    cases l with
    | nil => simp [joinTail]
    | cons b l2 =>
      have := ih (by simp)
      simp only [joinTail, List.getLastD_cons] at this ⊢
      exact List.IsSuffix.trans this (List.suffix_append _ _)

theorem Join_last (elems : List GoString) (sep : GoString) :
    elems.getLastD [] <:+ Join elems sep := by
  cases elems with
  | nil => simp [Join]
  | cons e rest =>
    cases rest with
    | nil => simp [Join]
    | cons e2 rest2 =>
      have := joinTail_last sep (e2 :: rest2) (by simp)
      simp only [Join, List.getLastD_cons] at this ⊢
      exact List.IsSuffix.trans this (List.suffix_append _ _)

/-- `QueryUnescape` undoes `QueryEscape` on every byte string. -/
theorem QueryUnescape_QueryEscape (s : GoString) : QueryUnescape (QueryEscape s) = .ok s := by
  rw [QueryEscape_eq_escapeLoop]
  obtain ⟨n, hp, h⟩ := unescapeCheck_escapeLoop s 0 false
  rw [QueryUnescape_of_check _ n hp h, unescapeLoop_escapeLoop]

/-- Each operation is an instance of the shared shape `perform`. -/
theorem DescribeGlobal_eq_perform {σ Req Err V : Type} (c : Client σ Req Err V) (w : σ) :
    DescribeGlobal c w = perform c (str "GET") (str "/tooling/sobjects/") none
      .DescribeGlobalResult DescribeGlobalResult.zero DescribeGlobalResult.zero id w := rfl

theorem ExecuteAnonymous_eq_perform {σ Req Err V : Type} (c : Client σ Req Err V)
    (apex : GoString) (w : σ) :
    ExecuteAnonymous c apex w =
      perform c (str "GET") (str "/tooling/executeAnonymous/?anonymousBody=" ++ QueryEscape apex) none
        .ExecuteAnonymousResult ExecuteAnonymousResult.zero ExecuteAnonymousResult.zero id w := rfl

theorem Query_eq_perform {σ Req Err V : Type} (c : Client σ Req Err V)
    (soql : GoString) (v : V) (w : σ) :
    Query c soql v w =
      perform c (str "GET") (str "/tooling/query/?q=" ++ QueryEscape soql) none
        .Interface v () (fun _ => ()) w := rfl

theorem RunTestsAsynchronous_eq_perform {σ Req Err V : Type} (c : Client σ Req Err V)
    (classids suiteids : List GoString) (maxFailedTests testLevel : GoString) (w : σ) :
    RunTestsAsynchronous c classids suiteids maxFailedTests testLevel w =
      perform c (str "POST") (str "/tooling/runTestsAsynchronous/")
        (some ⟨Join classids (str ","), Join suiteids (str ","), maxFailedTests, testLevel⟩)
        .String [] [] id w := rfl

theorem RunTests_eq_perform {σ Req Err V : Type} (c : Client σ Req Err V)
    (classnames : List GoString) (w : σ) :
    RunTests c classnames w =
      perform c (str "GET")
        (str "/tooling/runTestsSynchronous/?classnames=" ++ QueryEscape (Join classnames (str ",")))
        none .RunTestsResult RunTestsResult.zero RunTestsResult.zero id w := rfl

theorem Search_eq_perform {σ Req Err V : Type} (c : Client σ Req Err V)
    (sosl : GoString) (v : V) (w : σ) :
    Search c sosl v w =
      perform c (str "GET") (str "/tooling/search/?q=" ++ QueryEscape sosl) none
        .Interface v () (fun _ => ()) w := rfl

/-- The first transport call of every operation is the construction of the request. -/
theorem perform_calls_head {σ Req Err V R : Type} (c : Client σ Req Err V) (method urlStr : GoString)
    (body : Option RunTestsAsynchronousRequest) (k : Kind) (cur : Kind.Ty V k) (zero : R)
    (ret : Kind.Ty V k → R) (w : σ) :
    (perform c method urlStr body k cur zero ret w).calls.head? =
      some (Call.NewRequest method urlStr body) := by
  unfold perform
  simp only
  split <;> rfl

theorem perform_of_error {σ Req Err V R : Type} (c : Client σ Req Err V) (method urlStr : GoString)
    (body : Option RunTestsAsynchronousRequest) (k : Kind) (cur : Kind.Ty V k) (zero : R)
    (ret : Kind.Ty V k → R) (w : σ) (e : Err) (h : (c.NewRequest method urlStr body w).1.2 = some e) :
    perform c method urlStr body k cur zero ret w =
      { result := zero, err := some e, world := (c.NewRequest method urlStr body w).2,
        calls := [Call.NewRequest method urlStr body] } := by
  unfold perform
  simp only [h]

theorem perform_of_built {σ Req Err V R : Type} (c : Client σ Req Err V) (method urlStr : GoString)
    (body : Option RunTestsAsynchronousRequest) (k : Kind) (cur : Kind.Ty V k) (zero : R)
    (ret : Kind.Ty V k → R) (w : σ) (h : (c.NewRequest method urlStr body w).1.2 = none) :
    perform c method urlStr body k cur zero ret w =
      { result := ret (c.Do (c.NewRequest method urlStr body w).1.1 k cur
                        (c.NewRequest method urlStr body w).2).1.1,
        err := (c.Do (c.NewRequest method urlStr body w).1.1 k cur
                        (c.NewRequest method urlStr body w).2).1.2,
        world := (c.Do (c.NewRequest method urlStr body w).1.1 k cur
                        (c.NewRequest method urlStr body w).2).2,
        calls := [Call.NewRequest method urlStr body,
                  Call.Do (c.NewRequest method urlStr body w).1.1 k cur] } := by
  unfold perform
  simp only [h]

theorem structurePreserved_escape (pre : GoString) (s : GoString)
    (h1 : pre.count (chr '?') = 1) (h2 : pre.count (chr '=') = 1)
    (h3 : (pre.dropWhile (fun c => c != chr '?')).isEmpty = false)
    (h4 : ∀ c ∈ afterQuestionMark pre, c ≠ chr '&' ∧ c ≠ chr '#' ∧ c ≠ chr '/')
    (h5 : chr ' ' ∉ pre) :
    structurePreserved pre (pre ++ QueryEscape s) := by
  have hw : wellEscaped (QueryEscape s) = true := by
    rw [QueryEscape_eq_escapeLoop]; exact wellEscaped_escapeLoop s
  have hm := fun c hc => escapedByte_not_reserved c (wellEscaped_mem _ hw c hc)
  refine ⟨⟨_, rfl, hw⟩, ?_, ?_, ?_, ?_⟩
  · rw [List.count_append, h1, List.count_eq_zero.mpr (fun hc => (hm _ hc).1 rfl)]
  · rw [List.count_append, h2, List.count_eq_zero.mpr (fun hc => (hm _ hc).2.1 rfl)]
  · intro c hc
    unfold afterQuestionMark at hc
    rw [List.dropWhile_append, h3] at hc
    simp only [Bool.false_eq_true, if_false] at hc
    have hne : pre.dropWhile (fun c => c != chr '?') ≠ [] := by
      intro h; rw [h] at h3; cases h3
    obtain ⟨a, l, hal⟩ := List.exists_cons_of_ne_nil hne
    rw [hal] at hc
    simp only [List.cons_append, List.drop_succ_cons, List.drop_zero, List.mem_append] at hc
    rcases hc with hc | hc
    · apply h4
      unfold afterQuestionMark
      rw [hal]
      simpa using hc
    · exact ⟨(hm c hc).2.2.1, (hm c hc).2.2.2.1, (hm c hc).2.2.2.2.1⟩
  · intro hc
    rcases List.mem_append.mp hc with hc | hc
    · exact h5 hc
    · exact (hm _ hc).2.2.2.2.2 rfl

theorem perform_executedOnce {σ Req Err V R : Type} (c : Client σ Req Err V) (method urlStr : GoString)
    (body : Option RunTestsAsynchronousRequest) (k : Kind) (cur : Kind.Ty V k) (zero : R)
    (ret : Kind.Ty V k → R) (w : σ) (h : (c.NewRequest method urlStr body w).1.2 = none) :
    executedOnce c method urlStr body k cur ret w (perform c method urlStr body k cur zero ret w) := by
  rw [perform_of_built c method urlStr body k cur zero ret w h]
  exact ⟨rfl, rfl, rfl, rfl⟩

/-! ## Lemmas on JSON bodies -/

theorem member_omitempty_append (key value : GoString) (k2 : GoString) (rest : List (GoString × JSON)) :
    member (rest ++ omitempty key value) k2 =
      if value ≠ [] ∧ key = k2 then some (JSON.string value) else member rest k2 := by
  unfold omitempty member
  by_cases hv : value = []
  · simp [hv]
  · by_cases hk : key = k2
    · simp [hv, hk]
    · simp [hv, hk]

theorem member_marshal (b : RunTestsAsynchronousRequest) (k : GoString) :
    member (marshalRunTestsAsynchronousRequest b) k =
      if b.TestLevel ≠ [] ∧ str "testLevel" = k then some (JSON.string b.TestLevel)
      else if b.MaxFailedTests ≠ [] ∧ str "maxFailedTests" = k then some (JSON.string b.MaxFailedTests)
      else if b.SuiteIDs ≠ [] ∧ str "suiteids" = k then some (JSON.string b.SuiteIDs)
      else if b.ClassIDs ≠ [] ∧ str "classids" = k then some (JSON.string b.ClassIDs)
      else none := by
  unfold marshalRunTestsAsynchronousRequest
  rw [member_omitempty_append, member_omitempty_append, member_omitempty_append]
  have h := member_omitempty_append (str "classids") b.ClassIDs k []
  rw [List.nil_append] at h
  rw [h]
  rfl

theorem mem_omitempty (key value : GoString) (kv : GoString × JSON) (h : kv ∈ omitempty key value) :
    kv.1 = key ∧ kv.2 ≠ JSON.string [] := by
  unfold omitempty at h
  by_cases hv : value = []
  · rw [if_pos hv] at h; cases h
  · rw [if_neg hv] at h
    rw [List.mem_singleton] at h
    subst h
    exact ⟨rfl, fun hh => hv (JSON.string.inj hh)⟩

/-- The members of a marshalled body: each key is absent when its field is empty and carries the
field as a JSON string otherwise; no member is an empty string and no other key occurs. -/
theorem marshal_members (b : RunTestsAsynchronousRequest) :
    member (marshalRunTestsAsynchronousRequest b) (str "classids") =
        (if b.ClassIDs = [] then none else some (JSON.string b.ClassIDs))
    ∧ member (marshalRunTestsAsynchronousRequest b) (str "suiteids") =
        (if b.SuiteIDs = [] then none else some (JSON.string b.SuiteIDs))
    ∧ member (marshalRunTestsAsynchronousRequest b) (str "maxFailedTests") =
        (if b.MaxFailedTests = [] then none else some (JSON.string b.MaxFailedTests))
    ∧ member (marshalRunTestsAsynchronousRequest b) (str "testLevel") =
        (if b.TestLevel = [] then none else some (JSON.string b.TestLevel))
    ∧ (∀ kv ∈ marshalRunTestsAsynchronousRequest b, kv.2 ≠ JSON.string [])
    ∧ (∀ kv ∈ marshalRunTestsAsynchronousRequest b,
        kv.1 = str "classids" ∨ kv.1 = str "suiteids" ∨ kv.1 = str "maxFailedTests" ∨
          kv.1 = str "testLevel") := by
  refine ⟨?_, ?_, ?_, ?_, ?_, ?_⟩
  · rw [member_marshal]
    have h1 : str "suiteids" ≠ str "classids" := by decide
    have h2 : str "maxFailedTests" ≠ str "classids" := by decide
    have h3 : str "testLevel" ≠ str "classids" := by decide
    simp only [h1, h2, h3, and_false, if_false, and_true]
    by_cases h : b.ClassIDs = [] <;> simp [h]
  · rw [member_marshal]
    have h1 : str "classids" ≠ str "suiteids" := by decide
    have h2 : str "maxFailedTests" ≠ str "suiteids" := by decide
    have h3 : str "testLevel" ≠ str "suiteids" := by decide
    simp only [h1, h2, h3, and_false, if_false, and_true]
    by_cases h : b.SuiteIDs = [] <;> simp [h]
  · rw [member_marshal]
    have h1 : str "classids" ≠ str "maxFailedTests" := by decide
    have h2 : str "suiteids" ≠ str "maxFailedTests" := by decide
    have h3 : str "testLevel" ≠ str "maxFailedTests" := by decide
    simp only [h1, h2, h3, and_false, if_false, and_true]
    by_cases h : b.MaxFailedTests = [] <;> simp [h]
  · rw [member_marshal]
    have h1 : str "classids" ≠ str "testLevel" := by decide
    have h2 : str "suiteids" ≠ str "testLevel" := by decide
    have h3 : str "maxFailedTests" ≠ str "testLevel" := by decide
    simp only [h1, h2, h3, and_false, if_false, and_true]
    by_cases h : b.TestLevel = [] <;> simp [h]
  · intro kv hkv
    unfold marshalRunTestsAsynchronousRequest at hkv
    simp only [List.mem_append] at hkv
    rcases hkv with ((h | h) | h) | h <;> exact (mem_omitempty _ _ kv h).2
  · intro kv hkv
    unfold marshalRunTestsAsynchronousRequest at hkv
    simp only [List.mem_append] at hkv
    rcases hkv with ((h | h) | h) | h
    · exact Or.inl (mem_omitempty _ _ kv h).1
    · exact Or.inr (Or.inl (mem_omitempty _ _ kv h).1)
    · exact Or.inr (Or.inr (Or.inl (mem_omitempty _ _ kv h).1))
    · exact Or.inr (Or.inr (Or.inr (mem_omitempty _ _ kv h).1))

/-- Decoding an array whose elements all decode yields one record per element, in order. -/
theorem decodeElems_of_all {α : Type} (f : JSON → Option α) (l : List JSON)
    (h : ∀ j ∈ l, (f j).isSome = true) :
    ∃ L, decodeElems f l = some L ∧ L.length = l.length ∧ ∀ i : Nat, L[i]? = (l[i]?).bind f := by
  induction l with
  | nil => exact ⟨[], rfl, rfl, fun i => by simp⟩
  | cons j rest ih =>
    obtain ⟨L, hL, hlen, hget⟩ := ih (fun x hx => h x (List.mem_cons_of_mem _ hx))
    obtain ⟨a, ha⟩ := Option.isSome_iff_exists.mp (h j (List.mem_cons_self _ _))
    refine ⟨a :: L, ?_, ?_, ?_⟩
    · unfold decodeElems
      rw [ha, hL]
    · simp [hlen]
    · intro i
      cases i with
      | zero => simp [ha]
      | succ i => simpa using hget i

theorem getInt_of_number (ms : List (GoString × JSON)) (key lit : GoString)
    (h : member ms key = some (.number lit)) : getInt ms key = parseInt lit := by
  unfold getInt; rw [h]

theorem getList_of_array {α : Type} (f : JSON → Option α) (ms : List (GoString × JSON))
    (key : GoString) (elems : List JSON)
    (h : member ms key = some (.array elems)) : getList f ms key = decodeElems f elems := by
  unfold getList; rw [h]

/-! ## The claims -/

/-- C1 (round-trip law for query parameters): for every text, the first thing `ExecuteAnonymous`,
`Query` and `Search` do is to build a `GET` request whose path is the fixed text of the operation
followed by an encoded parameter, and `url.QueryUnescape` of that parameter is the original text,
byte for byte; for `RunTests` the text is the class names joined by `,` in the given order. -/
theorem query_parameter_round_trip {σ Req Err V : Type} (c : Client σ Req Err V) (w : σ)
    (text : GoString) (v : V) (classnames : List GoString) :
    (∃ enc, (ExecuteAnonymous c text w).calls.head? =
        some (Call.NewRequest (str "GET") (str "/tooling/executeAnonymous/?anonymousBody=" ++ enc) none)
      ∧ QueryUnescape enc = .ok text) ∧
    (∃ enc, (Query c text v w).calls.head? =
        some (Call.NewRequest (str "GET") (str "/tooling/query/?q=" ++ enc) none)
      ∧ QueryUnescape enc = .ok text) ∧
    (∃ enc, (Search c text v w).calls.head? =
        some (Call.NewRequest (str "GET") (str "/tooling/search/?q=" ++ enc) none)
      ∧ QueryUnescape enc = .ok text) ∧
    (∃ enc, (RunTests c classnames w).calls.head? =
        some (Call.NewRequest (str "GET") (str "/tooling/runTestsSynchronous/?classnames=" ++ enc) none)
      ∧ QueryUnescape enc = .ok (List.intercalate (str ",") classnames)) := by
  rw [ExecuteAnonymous_eq_perform, Query_eq_perform, Search_eq_perform, RunTests_eq_perform]
  refine ⟨⟨QueryEscape text, perform_calls_head _ _ _ _ _ _ _ _ _, QueryUnescape_QueryEscape _⟩,
    ⟨QueryEscape text, perform_calls_head _ _ _ _ _ _ _ _ _, QueryUnescape_QueryEscape _⟩,
    ⟨QueryEscape text, perform_calls_head _ _ _ _ _ _ _ _ _, QueryUnescape_QueryEscape _⟩,
    ⟨QueryEscape (Join classnames (str ",")), perform_calls_head _ _ _ _ _ _ _ _ _, ?_⟩⟩
  rw [QueryUnescape_QueryEscape, Join_eq_intercalate]

/-- C2 (empty body fields are omitted): in the JSON body of the request `RunTestsAsynchronous`
builds, each of the keys `classids`, `suiteids`, `maxFailedTests` and `testLevel` is absent when
its value (the joined ID list, the given string) is empty and carries exactly that value as a JSON
string otherwise; no member is an empty string and no other key occurs. In particular, with empty
`maxFailedTests` and empty `testLevel` the body has neither key. -/
theorem runTestsAsynchronous_body_omits_empty {σ Req Err V : Type} (c : Client σ Req Err V) (w : σ)
    (classids suiteids : List GoString) (maxFailedTests testLevel : GoString) :
    (∃ body, (RunTestsAsynchronous c classids suiteids maxFailedTests testLevel w).calls.head? =
        some (Call.NewRequest (str "POST") (str "/tooling/runTestsAsynchronous/") (some body))
      ∧ member (marshalRunTestsAsynchronousRequest body) (str "classids") =
          (if Join classids (str ",") = [] then none else some (JSON.string (Join classids (str ","))))
      ∧ member (marshalRunTestsAsynchronousRequest body) (str "suiteids") =
          (if Join suiteids (str ",") = [] then none else some (JSON.string (Join suiteids (str ","))))
      ∧ member (marshalRunTestsAsynchronousRequest body) (str "maxFailedTests") =
          (if maxFailedTests = [] then none else some (JSON.string maxFailedTests))
      ∧ member (marshalRunTestsAsynchronousRequest body) (str "testLevel") =
          (if testLevel = [] then none else some (JSON.string testLevel))
      ∧ (∀ kv ∈ marshalRunTestsAsynchronousRequest body, kv.2 ≠ JSON.string [])
      ∧ (∀ kv ∈ marshalRunTestsAsynchronousRequest body,
          kv.1 = str "classids" ∨ kv.1 = str "suiteids" ∨ kv.1 = str "maxFailedTests" ∨
            kv.1 = str "testLevel"))
    ∧ (∃ body, (RunTestsAsynchronous c classids suiteids [] [] w).calls.head? =
        some (Call.NewRequest (str "POST") (str "/tooling/runTestsAsynchronous/") (some body))
      ∧ member (marshalRunTestsAsynchronousRequest body) (str "maxFailedTests") = none
      ∧ member (marshalRunTestsAsynchronousRequest body) (str "testLevel") = none) := by
  rw [RunTestsAsynchronous_eq_perform, RunTestsAsynchronous_eq_perform]
  exact ⟨⟨_, perform_calls_head _ _ _ _ _ _ _ _ _, marshal_members _⟩,
    ⟨_, perform_calls_head _ _ _ _ _ _ _ _ _, (marshal_members _).2.2.1, (marshal_members _).2.2.2.1⟩⟩

/-- C3 (ID lists are comma-joined): the body `RunTestsAsynchronous` hands to `NewRequest` has
`ClassIDs` equal to the class IDs joined by `,` in the given order and `SuiteIDs` equal to the
suite IDs joined likewise; each joined text starts with the first ID, ends with the last ID and is
as long as the IDs together plus one separator between neighbours, so there is no leading or
trailing separator. For the class IDs `A`, `B` the field is the literal text `A,B`. -/
theorem runTestsAsynchronous_body_joins_ids {σ Req Err V : Type} (c : Client σ Req Err V) (w : σ)
    (classids suiteids : List GoString) (maxFailedTests testLevel : GoString) :
    (∃ body, (RunTestsAsynchronous c classids suiteids maxFailedTests testLevel w).calls.head? =
        some (Call.NewRequest (str "POST") (str "/tooling/runTestsAsynchronous/") (some body))
      ∧ body.ClassIDs = List.intercalate (str ",") classids
      ∧ body.SuiteIDs = List.intercalate (str ",") suiteids
      ∧ classids.headD [] <+: body.ClassIDs ∧ classids.getLastD [] <:+ body.ClassIDs
      ∧ suiteids.headD [] <+: body.SuiteIDs ∧ suiteids.getLastD [] <:+ body.SuiteIDs
      ∧ body.ClassIDs.length = (classids.map List.length).sum + (classids.length - 1)
      ∧ body.SuiteIDs.length = (suiteids.map List.length).sum + (suiteids.length - 1))
    ∧ (∃ body, (RunTestsAsynchronous c [str "A", str "B"] suiteids maxFailedTests testLevel w).calls.head? =
        some (Call.NewRequest (str "POST") (str "/tooling/runTestsAsynchronous/") (some body))
      ∧ body.ClassIDs = str "A,B") := by
  rw [RunTestsAsynchronous_eq_perform, RunTestsAsynchronous_eq_perform]
  refine ⟨⟨_, perform_calls_head _ _ _ _ _ _ _ _ _, Join_eq_intercalate _ _, Join_eq_intercalate _ _,
    Join_head _ _, Join_last _ _, Join_head _ _, Join_last _ _, ?_, ?_⟩,
    ⟨_, perform_calls_head _ _ _ _ _ _ _ _ _, ?_⟩⟩
  · have hl : (str ",").length = 1 := by decide
    rw [Join_length classids (str ","), hl, Nat.one_mul]
  · have hl : (str ",").length = 1 := by decide
    rw [Join_length suiteids (str ","), hl, Nat.one_mul]
  · show Join [str "A", str "B"] (str ",") = str "A,B"
    decide

/-- C4 (a construction error is returned and nothing is executed): when the transport's
`NewRequest` fails with error `e`, each of the six operations returns `e` and makes no call of
`Do`, for every input. -/
theorem construction_error_is_returned_without_network_call {σ Req Err V : Type}
    (c : Client σ Req Err V) (w : σ) (e : Err)
    (h : ∀ method urlStr body, (c.NewRequest method urlStr body w).1.2 = some e)
    (apex soql sosl : GoString) (v : V) (classnames classids suiteids : List GoString)
    (maxFailedTests testLevel : GoString) :
    ((DescribeGlobal c w).err = some e ∧ (DescribeGlobal c w).calls.filter Call.isDo = []) ∧
    ((ExecuteAnonymous c apex w).err = some e ∧ (ExecuteAnonymous c apex w).calls.filter Call.isDo = []) ∧
    ((Query c soql v w).err = some e ∧ (Query c soql v w).calls.filter Call.isDo = []) ∧
    ((Search c sosl v w).err = some e ∧ (Search c sosl v w).calls.filter Call.isDo = []) ∧
    ((RunTests c classnames w).err = some e ∧ (RunTests c classnames w).calls.filter Call.isDo = []) ∧
    ((RunTestsAsynchronous c classids suiteids maxFailedTests testLevel w).err = some e ∧
      (RunTestsAsynchronous c classids suiteids maxFailedTests testLevel w).calls.filter Call.isDo = []) := by
  refine ⟨?_, ?_, ?_, ?_, ?_, ?_⟩
  · rw [DescribeGlobal_eq_perform, perform_of_error _ _ _ _ _ _ _ _ _ e (h _ _ _)]; exact ⟨rfl, rfl⟩
  · rw [ExecuteAnonymous_eq_perform, perform_of_error _ _ _ _ _ _ _ _ _ e (h _ _ _)]; exact ⟨rfl, rfl⟩
  · rw [Query_eq_perform, perform_of_error _ _ _ _ _ _ _ _ _ e (h _ _ _)]; exact ⟨rfl, rfl⟩
  · rw [Search_eq_perform, perform_of_error _ _ _ _ _ _ _ _ _ e (h _ _ _)]; exact ⟨rfl, rfl⟩
  · rw [RunTests_eq_perform, perform_of_error _ _ _ _ _ _ _ _ _ e (h _ _ _)]; exact ⟨rfl, rfl⟩
  · rw [RunTestsAsynchronous_eq_perform, perform_of_error _ _ _ _ _ _ _ _ _ e (h _ _ _)]; exact ⟨rfl, rfl⟩

/-- Witness for C4: on the transport `rejecting`, whose construction step always fails with error
`7`, every operation returns `7` and calls `Do` not once. -/
theorem construction_error_witness :
    (∀ method urlStr body, (rejecting.NewRequest method urlStr body 0).1.2 = some 7) ∧
    ((DescribeGlobal rejecting 0).err = some 7 ∧ (DescribeGlobal rejecting 0).calls.filter Call.isDo = []) ∧
    ((ExecuteAnonymous rejecting (str "System.debug(1);") 0).err = some 7 ∧
      (ExecuteAnonymous rejecting (str "System.debug(1);") 0).calls.filter Call.isDo = []) ∧
    ((Query rejecting (str "SELECT Id FROM ApexClass") 0 0).err = some 7 ∧
      (Query rejecting (str "SELECT Id FROM ApexClass") 0 0).calls.filter Call.isDo = []) ∧
    ((Search rejecting (str "FIND abc") 0 0).err = some 7 ∧
      (Search rejecting (str "FIND abc") 0 0).calls.filter Call.isDo = []) ∧
    ((RunTests rejecting [str "A"] 0).err = some 7 ∧
      (RunTests rejecting [str "A"] 0).calls.filter Call.isDo = []) ∧
    ((RunTestsAsynchronous rejecting [str "A"] [] [] [] 0).err = some 7 ∧
      (RunTestsAsynchronous rejecting [str "A"] [] [] [] 0).calls.filter Call.isDo = []) :=
  ⟨fun _ _ _ => rfl,
    construction_error_is_returned_without_network_call rejecting 0 7 (fun _ _ _ => rfl)
      (str "System.debug(1);") (str "SELECT Id FROM ApexClass") (str "FIND abc") 0
      [str "A"] [str "A"] [] [] []⟩

/-- C5 (the execution result is returned verbatim): for each of the six operations and every
input, when `NewRequest` builds the request without error, the operation calls `Do` exactly once,
on the request `NewRequest` returned, and returns the error `Do` returned together with the value
`Do` left in the typed destination, unchanged (`Query` and `Search` return the error only). -/
theorem execution_result_is_returned_verbatim {σ Req Err V : Type}
    (c : Client σ Req Err V) (w : σ)
    (apex soql sosl : GoString) (v : V) (classnames classids suiteids : List GoString)
    (maxFailedTests testLevel : GoString) :
    ((c.NewRequest (str "GET") (str "/tooling/sobjects/") none w).1.2 = none →
      executedOnce c (str "GET") (str "/tooling/sobjects/") none
        .DescribeGlobalResult DescribeGlobalResult.zero id w (DescribeGlobal c w)) ∧
    ((c.NewRequest (str "GET") (str "/tooling/executeAnonymous/?anonymousBody=" ++ QueryEscape apex)
        none w).1.2 = none →
      executedOnce c (str "GET") (str "/tooling/executeAnonymous/?anonymousBody=" ++ QueryEscape apex) none
        .ExecuteAnonymousResult ExecuteAnonymousResult.zero id w (ExecuteAnonymous c apex w)) ∧
    ((c.NewRequest (str "GET") (str "/tooling/query/?q=" ++ QueryEscape soql) none w).1.2 = none →
      executedOnce c (str "GET") (str "/tooling/query/?q=" ++ QueryEscape soql) none
        .Interface v (fun _ => ()) w (Query c soql v w)) ∧
    ((c.NewRequest (str "GET") (str "/tooling/search/?q=" ++ QueryEscape sosl) none w).1.2 = none →
      executedOnce c (str "GET") (str "/tooling/search/?q=" ++ QueryEscape sosl) none
        .Interface v (fun _ => ()) w (Search c sosl v w)) ∧
    ((c.NewRequest (str "GET")
        (str "/tooling/runTestsSynchronous/?classnames=" ++ QueryEscape (Join classnames (str ",")))
        none w).1.2 = none →
      executedOnce c (str "GET")
        (str "/tooling/runTestsSynchronous/?classnames=" ++ QueryEscape (Join classnames (str ","))) none
        .RunTestsResult RunTestsResult.zero id w (RunTests c classnames w)) ∧
    ((c.NewRequest (str "POST") (str "/tooling/runTestsAsynchronous/")
        (some ⟨Join classids (str ","), Join suiteids (str ","), maxFailedTests, testLevel⟩) w).1.2 = none →
      executedOnce c (str "POST") (str "/tooling/runTestsAsynchronous/")
        (some ⟨Join classids (str ","), Join suiteids (str ","), maxFailedTests, testLevel⟩)
        .String [] id w (RunTestsAsynchronous c classids suiteids maxFailedTests testLevel w)) := by
  rw [DescribeGlobal_eq_perform, ExecuteAnonymous_eq_perform, Query_eq_perform, Search_eq_perform,
    RunTests_eq_perform, RunTestsAsynchronous_eq_perform]
  exact ⟨perform_executedOnce _ _ _ _ _ _ _ _ _, perform_executedOnce _ _ _ _ _ _ _ _ _,
    perform_executedOnce _ _ _ _ _ _ _ _ _, perform_executedOnce _ _ _ _ _ _ _ _ _,
    perform_executedOnce _ _ _ _ _ _ _ _ _, perform_executedOnce _ _ _ _ _ _ _ _ _⟩

set_option maxRecDepth 100000 in
/-- Witness for C5: on the transport `canned`, which builds and executes every request,
`RunTests` calls `Do` once on the request built for the escaped class names and returns what was
decoded, and `RunTestsAsynchronous` returns the decoded job identifier. -/
theorem execution_result_witness :
    (canned.NewRequest (str "GET")
        (str "/tooling/runTestsSynchronous/?classnames=" ++
          QueryEscape (Join [str "A", str "B"] (str ","))) none 0).1.2 = none ∧
    (canned.NewRequest (str "POST") (str "/tooling/runTestsAsynchronous/")
        (some ⟨Join [str "A", str "B"] (str ","), Join [] (str ","), [], []⟩) 0).1.2 = none ∧
    ((RunTests canned [str "A", str "B"] 0).calls.filter Call.isDo =
        [Call.Do (str "/tooling/runTestsSynchronous/?classnames=A%2CB") .RunTestsResult RunTestsResult.zero]
      ∧ (RunTests canned [str "A", str "B"] 0).err = none
      ∧ (RunTests canned [str "A", str "B"] 0).result.NumFailures = 2
      ∧ (RunTests canned [str "A", str "B"] 0).world = 1) ∧
    ((RunTestsAsynchronous canned [str "A", str "B"] [] [] [] 0).err = none
      ∧ (RunTestsAsynchronous canned [str "A", str "B"] [] [] [] 0).result = str "707xx0000000001") := by
  have h := execution_result_is_returned_verbatim canned 0 (str "System.debug(1);")
    (str "SELECT Id FROM ApexClass") (str "FIND abc") 0 [str "A", str "B"] [str "A", str "B"] [] [] []
  obtain ⟨h1, h2, h3, h4⟩ := h.2.2.2.2.1 rfl
  obtain ⟨g1, g2, g3, g4⟩ := h.2.2.2.2.2 rfl
  refine ⟨rfl, rfl, ⟨?_, ?_, ?_, ?_⟩, ?_, ?_⟩
  · rw [h1]
    have : (canned.NewRequest (str "GET")
        (str "/tooling/runTestsSynchronous/?classnames=" ++ QueryEscape (Join [str "A", str "B"] (str ",")))
        none 0).1.1 = str "/tooling/runTestsSynchronous/?classnames=A%2CB" := by decide
    rw [this]
  · rw [h2]; rfl
  · rw [h3]; rfl
  · rw [h4]; rfl
  · rw [g2]; rfl
  · rw [g3]; rfl

/-- C6 (a business-logic failure is a normal result): when the request of `ExecuteAnonymous` is
built and `Do` decodes a result `r` and returns the error `e`, `ExecuteAnonymous` returns exactly
`e` and exactly `r`: the error is the one `Do` returned whatever `Success` and `Compiled` are. In
particular, when `Do` succeeds and `Success` of `r` is false, the error returned is nil and the
result has `Success` false and the `Compiled` and `ExceptionMessage` that were decoded. -/
theorem business_failure_is_a_normal_result {σ Req Err V : Type} (c : Client σ Req Err V) (w : σ)
    (apex : GoString) (r : ExecuteAnonymousResult) (e : Option Err)
    (hNew : (c.NewRequest (str "GET") (str "/tooling/executeAnonymous/?anonymousBody=" ++ QueryEscape apex)
              none w).1.2 = none)
    (hDo : (c.Do
              (c.NewRequest (str "GET") (str "/tooling/executeAnonymous/?anonymousBody=" ++ QueryEscape apex)
                none w).1.1
              .ExecuteAnonymousResult ExecuteAnonymousResult.zero
              (c.NewRequest (str "GET") (str "/tooling/executeAnonymous/?anonymousBody=" ++ QueryEscape apex)
                none w).2).1 = (r, e)) :
    (ExecuteAnonymous c apex w).err = e ∧
    (ExecuteAnonymous c apex w).result = r ∧
    (e = none → r.Success = false →
      (ExecuteAnonymous c apex w).err = none ∧
      (ExecuteAnonymous c apex w).result.Success = false ∧
      (ExecuteAnonymous c apex w).result.Compiled = r.Compiled ∧
      (ExecuteAnonymous c apex w).result.ExceptionMessage = r.ExceptionMessage) := by
  rw [ExecuteAnonymous_eq_perform, perform_of_built _ _ _ _ _ _ _ _ _ hNew]
  have hr := congrArg Prod.fst hDo
  have he := congrArg Prod.snd hDo
  exact ⟨he, hr, fun h1 h2 => ⟨he.trans h1, (congrArg ExecuteAnonymousResult.Success hr).trans h2,
    congrArg ExecuteAnonymousResult.Compiled hr, congrArg ExecuteAnonymousResult.ExceptionMessage hr⟩⟩

set_option maxRecDepth 100000 in
/-- Witness for C6: the transport `canned` decodes `success` false, `compiled` true and the
exception message `boom`; `ExecuteAnonymous` returns exactly that with a nil error. -/
theorem business_failure_witness :
    (canned.NewRequest (str "GET")
        (str "/tooling/executeAnonymous/?anonymousBody=" ++ QueryEscape (str "Integer i = 1 / 0;"))
        none 0).1.2 = none ∧
    (ExecuteAnonymous canned (str "Integer i = 1 / 0;") 0).err = none ∧
    (ExecuteAnonymous canned (str "Integer i = 1 / 0;") 0).result.Success = false ∧
    (ExecuteAnonymous canned (str "Integer i = 1 / 0;") 0).result.Compiled = true ∧
    (ExecuteAnonymous canned (str "Integer i = 1 / 0;") 0).result.ExceptionMessage = str "boom" := by
  have h := (business_failure_is_a_normal_result canned 0 (str "Integer i = 1 / 0;")
    { ExecuteAnonymousResult.zero with Success := false, Compiled := true, ExceptionMessage := str "boom" }
    none rfl rfl).2.2 rfl rfl
  exact ⟨rfl, h.1, h.2.1, h.2.2.1, h.2.2.2⟩

/-- C7 (decoding a test run is lossless for counts and lists): for every response object whose
members `numFailures` and `numTestsRun` are integer literals, whose members `failures` and
`successes` are arrays of decodable entries and whose remaining members decode, the decoding
succeeds; the result has `NumFailures` and `NumTestsRun` equal to those integers, and its
`Failures` and `Successes` have the length of the arrays and hold, position by position, the
decoded entries. Nothing requires `numFailures` to agree with the number of failure entries. -/
theorem runTestsResult_decoding_is_lossless (pf : GoString → Option Float64)
    (ms : List (GoString × JSON)) (litFailures litRun : GoString) (numFailures numTestsRun : Int)
    (failures successes : List JSON)
    (apexLogId : GoString) (coverage : List CodeCoverageResult) (warnings : List CodeCoverageWarning)
    (totalTime : Float64)
    (hNumFailures : member ms (str "numFailures") = some (.number litFailures))
    (hLitFailures : parseInt litFailures = some numFailures)
    (hNumTestsRun : member ms (str "numTestsRun") = some (.number litRun))
    (hLitRun : parseInt litRun = some numTestsRun)
    (hFailures : member ms (str "failures") = some (.array failures))
    (hFailureEntries : ∀ j ∈ failures, (decodeRunTestFailure pf j).isSome = true)
    (hSuccesses : member ms (str "successes") = some (.array successes))
    (hSuccessEntries : ∀ j ∈ successes, (decodeRunTestSuccess pf j).isSome = true)
    (hApexLogId : getString ms (str "apexLogId") = some apexLogId)
    (hCoverage : getList (decodeCodeCoverageResult pf) ms (str "codeCoverage") = some coverage)
    (hWarnings : getList decodeCodeCoverageWarning ms (str "codeCoverageWarnings") = some warnings)
    (hTotalTime : getFloat pf ms (str "totalTime") = some totalTime) :
    ∃ r, decodeRunTestsResult pf (.object ms) = some r ∧
      r.NumFailures = numFailures ∧ r.NumTestsRun = numTestsRun ∧
      r.Failures.length = failures.length ∧
      (∀ i : Nat, r.Failures[i]? = (failures[i]?).bind (decodeRunTestFailure pf)) ∧
      r.Successes.length = successes.length ∧
      (∀ i : Nat, r.Successes[i]? = (successes[i]?).bind (decodeRunTestSuccess pf)) := by
  obtain ⟨F, hF, hFlen, hFget⟩ := decodeElems_of_all _ failures hFailureEntries
  obtain ⟨S, hS, hSlen, hSget⟩ := decodeElems_of_all _ successes hSuccessEntries
  refine ⟨{ ApexLogID := apexLogId, CodeCoverage := coverage, CodeCoverageWarnings := warnings,
            Failures := F, NumFailures := numFailures, NumTestsRun := numTestsRun,
            Successes := S, TotalTime := totalTime }, ?_, rfl, rfl, hFlen, hFget, hSlen, hSget⟩
  simp only [decodeRunTestsResult, hApexLogId, hCoverage, hWarnings,
    getList_of_array _ _ _ _ hFailures, hF, getInt_of_number _ _ _ hNumFailures, hLitFailures,
    getInt_of_number _ _ _ hNumTestsRun, hLitRun, getList_of_array _ _ _ _ hSuccesses, hS, hTotalTime,
    Option.bind_eq_bind, Option.some_bind, Option.pure_def]

set_option maxRecDepth 100000 in
/-- Witness for C7: the body `twoFailures`, with `numFailures` 2 and two failure entries, decodes
to a result with `NumFailures` 2 and a failure list of length 2 in the order of the body. -/
theorem runTestsResult_decoding_witness :
    ∃ r, decodeRunTestsResult (fun _ => none) (.object twoFailures) = some r ∧
      r.NumFailures = 2 ∧ r.NumTestsRun = 5 ∧ r.Failures.length = 2 ∧
      (r.Failures[0]?).map (fun f => f.MethodName) = some (str "testA") ∧
      (r.Failures[1]?).map (fun f => f.MethodName) = some (str "testB") ∧
      r.Successes.length = 1 := by
  obtain ⟨r, hr, h1, h2, h3, h4, h5, _⟩ :=
    runTestsResult_decoding_is_lossless (fun _ => none) twoFailures (str "2") (str "5") 2 5
      [.object [(str "name", .string (str "FooTest")), (str "methodName", .string (str "testA")),
                (str "message", .string (str "Assertion failed"))],
       .object [(str "name", .string (str "FooTest")), (str "methodName", .string (str "testB")),
                (str "message", .string (str "boom"))]]
      [.object [(str "name", .string (str "BarTest")), (str "methodName", .string (str "testC"))]]
      [] [] [] ⟨0⟩ (by rfl) (by decide) (by rfl) (by decide) (by rfl) (by decide) (by rfl) (by decide)
      (by rfl) (by rfl) (by rfl) (by rfl)
  refine ⟨r, hr, h1, h2, h3, ?_, ?_, h5⟩
  · rw [h4 0]; decide
  · rw [h4 1]; decide

/-- C8 (evaluation of `Query` at a sample input): `Query` hands `Do` the address of its own
parameter variable, a variable of type `interface{}` that holds a copy of the caller's value `0`;
the transport decodes `42` into that variable and succeeds; `Query` returns the nil error and
nothing else, so the decoded value does not reach the caller through `Query`. `Search` does the
same. -/
theorem query_decodes_into_its_own_parameter :
    (Query canned (str "SELECT Id FROM ApexClass") 0 0).calls =
      [Call.NewRequest (str "GET") (str "/tooling/query/?q=SELECT+Id+FROM+ApexClass") none,
       Call.Do (str "/tooling/query/?q=SELECT+Id+FROM+ApexClass") Kind.Interface (0 : Nat)] ∧
    (canned.Do (str "/tooling/query/?q=SELECT+Id+FROM+ApexClass") Kind.Interface (0 : Nat) 0).1
      = ((42 : Nat), none) ∧
    (Query canned (str "SELECT Id FROM ApexClass") 0 0).err = none ∧
    (Query canned (str "SELECT Id FROM ApexClass") 0 0).result = () ∧
    (Query canned (str "SELECT Id FROM ApexClass") 0 0).world = 1 ∧
    (Search canned (str "FIND abc") 0 0).calls =
      [Call.NewRequest (str "GET") (str "/tooling/search/?q=FIND+abc") none,
       Call.Do (str "/tooling/search/?q=FIND+abc") Kind.Interface (0 : Nat)] ∧
    (Search canned (str "FIND abc") 0 0).err = none := by
  have h : QueryEscape (str "SELECT Id FROM ApexClass") = str "SELECT+Id+FROM+ApexClass" := by decide
  have h2 : QueryEscape (str "FIND abc") = str "FIND+abc" := by decide
  refine ⟨?_, rfl, rfl, rfl, ?_, ?_, rfl⟩
  · rw [Query_eq_perform, h]
    rfl
  · rw [Query_eq_perform, h]
    rfl
  · rw [Search_eq_perform, h2]
    rfl

/-- C9 (evaluation of the decoding of a test failure): a failure entry carrying `"type": "Class"`
decodes to a `RunTestFailure` whose `Type` is empty, because the field is tagged `string` in the
source; the same text under the key `string` does reach the field, and a coverage record carrying
`"type": "Class"` decodes to a `CodeCoverageResult` whose `Type` is `Class`. -/
theorem runTestFailure_type_is_read_from_key_string (pf : GoString → Option Float64) :
    (decodeRunTestFailure pf (.object [(str "type", .string (str "Class"))])).map (fun r => r.Type_)
      = some [] ∧
    (decodeRunTestFailure pf (.object [(str "string", .string (str "Class"))])).map (fun r => r.Type_)
      = some (str "Class") ∧
    (decodeCodeCoverageResult pf (.object [(str "type", .string (str "Class"))])).map (fun r => r.Type_)
      = some (str "Class") := by
  refine ⟨?_, ?_, ?_⟩ <;> rfl

set_option maxRecDepth 100000 in
/-- C10 (caller text cannot alter the structure of the request path): for every text, the path
`ExecuteAnonymous`, `Query`, `Search` and `RunTests` hand to `NewRequest` is the fixed text of the
operation followed by a text made only of ASCII letters, digits, `-`, `_`, `.`, `~`, `+` and `%`
with two upper-case hexadecimal digits; it has exactly one `?`, exactly one `=`, no `&`, `#` or `/`
after the `?`, and no space. -/
theorem url_structure_preserved {σ Req Err V : Type} (c : Client σ Req Err V) (w : σ)
    (text : GoString) (v : V) (classnames : List GoString) :
    (∃ path, (ExecuteAnonymous c text w).calls.head? = some (Call.NewRequest (str "GET") path none)
      ∧ structurePreserved (str "/tooling/executeAnonymous/?anonymousBody=") path) ∧
    (∃ path, (Query c text v w).calls.head? = some (Call.NewRequest (str "GET") path none)
      ∧ structurePreserved (str "/tooling/query/?q=") path) ∧
    (∃ path, (Search c text v w).calls.head? = some (Call.NewRequest (str "GET") path none)
      ∧ structurePreserved (str "/tooling/search/?q=") path) ∧
    (∃ path, (RunTests c classnames w).calls.head? = some (Call.NewRequest (str "GET") path none)
      ∧ structurePreserved (str "/tooling/runTestsSynchronous/?classnames=") path) := by
  rw [ExecuteAnonymous_eq_perform, Query_eq_perform, Search_eq_perform, RunTests_eq_perform]
  refine ⟨⟨_, perform_calls_head _ _ _ _ _ _ _ _ _, ?_⟩, ⟨_, perform_calls_head _ _ _ _ _ _ _ _ _, ?_⟩,
    ⟨_, perform_calls_head _ _ _ _ _ _ _ _ _, ?_⟩, ⟨_, perform_calls_head _ _ _ _ _ _ _ _ _, ?_⟩⟩
  all_goals
    apply structurePreserved_escape
    all_goals decide

end Force
